import Mathlib

/-!
Verification development for the Appwt walkie-talkie signaling repository.

Server side (signaling relay, `part_000`): an in-memory map `activeRooms`
from room id to the set of member ids, plus socket.io room membership used
for fan-out, and the event handlers `join-room`, `leave-room`, `offer`,
`answer`, `ice-candidate`, `user-talking`, `disconnect`.

Client side (`part_001`, class `WalkieTalkieApp`): the peer-connection map,
`joinRoom`, `createPeerConnection`/`createOffer`, the socket event handlers,
and the push-to-talk toggles.

JavaScript values that may be `undefined` are embedded as `Option String`
(abbreviated `Jstr`); the JS truthiness test used by the client on
`this.roomId` is `jsTruthy` (both `null`/`undefined` and the empty string
are falsy).
-/

namespace Appwt

/-- A possibly-undefined JavaScript string value. -/
abbrev Jstr := Option String

/-- Truthiness of a possibly-undefined string, as JavaScript evaluates it
in a condition: undefined/null and the empty string are falsy. -/
def jsTruthy : Jstr → Bool
  | none => false
  | some s => decide (s ≠ "")

/-! ### Generic association-list operations (JS `Map` / object semantics) -/

/-- Lookup in an association list (first match), modelling `Map.get` /
object property read. -/
def alookup {α : Type} (m : List (Jstr × α)) (k : Jstr) : Option α :=
  match m with
  | [] => none
  | (k', v) :: rest => if k' = k then some v else alookup rest k

/-- Update-or-append, modelling `Map.set` / object property write: replaces
the first entry with the given key, appending a new entry if absent. -/
def aset {α : Type} (m : List (Jstr × α)) (k : Jstr) (v : α) : List (Jstr × α) :=
  match m with
  | [] => [(k, v)]
  | (k', w) :: rest => if k' = k then (k', v) :: rest else (k', w) :: aset rest k v

/-- Deletion, modelling `Map.delete` / the `delete` operator. -/
def adelete {α : Type} (m : List (Jstr × α)) (k : Jstr) : List (Jstr × α) :=
  m.filter (fun e => e.1 ≠ k)

/-! ### Room registry (server, `const activeRooms = new Map()`) -/

/-- The server registry: room id mapped to the member set, kept as the
insertion-ordered duplicate-free list a JS `Set` iterates in. -/
abbrev Registry := List (Jstr × List Jstr)

/-- `activeRooms.get(roomId)` followed by `|| []` / `Array.from`. -/
def membersOf (reg : Registry) (r : Jstr) : List Jstr :=
  (alookup reg r).getD []

/-- `activeRooms.has(roomId)`. -/
def hasRoom (reg : Registry) (r : Jstr) : Bool :=
  (alookup reg r).isSome

/-- `Set.add`: appends the element unless already present. -/
def addMember (l : List Jstr) (u : Jstr) : List Jstr :=
  if u ∈ l then l else l ++ [u]

/-- `Set.delete`: removes the element if present. -/
def delMember (l : List Jstr) (u : Jstr) : List Jstr :=
  l.filter (fun x => x ≠ u)

/-- The registry effect of the `join-room` handler:
`if (!activeRooms.has(roomId)) activeRooms.set(roomId, new Set());
activeRooms.get(roomId).add(userId)`. -/
def joinReg (reg : Registry) (r u : Jstr) : Registry :=
  let reg1 := if hasRoom reg r then reg else aset reg r []
  aset reg1 r (addMember (membersOf reg1 r) u)

/-- The registry effect of the `leave-room` handler: delete the member,
then delete the room entry when its set became empty; no-op when the room
is absent. -/
def leaveReg (reg : Registry) (r u : Jstr) : Registry :=
  if hasRoom reg r then
    let reg1 := aset reg r (delMember (membersOf reg r) u)
    if membersOf reg1 r = [] then adelete reg1 r else reg1
  else reg

/-- The registry effect of the `disconnect` handler: for every room whose
member set contains the transport id `socket.id`, delete that id and drop
the room if it became empty. All other entries are untouched. -/
def disconnectReg (reg : Registry) (sid : String) : Registry :=
  reg.filterMap (fun e =>
    if some sid ∈ e.2 then
      let users := delMember e.2 (some sid)
      if users = [] then none else some (e.1, users)
    else some e)

/-! ### Socket.io rooms and fan-out -/

/-- One connected socket: its transport id and the socket.io rooms it has
joined. -/
structure SocketInfo where
  sid : String
  rooms : List Jstr
  deriving DecidableEq, Repr

/-- `socket.join(room)`. -/
def socketJoin (socks : List SocketInfo) (s : String) (r : Jstr) : List SocketInfo :=
  socks.map (fun sk =>
    if sk.sid = s then
      { sk with rooms := if r ∈ sk.rooms then sk.rooms else sk.rooms ++ [r] }
    else sk)

/-- `socket.leave(room)`. -/
def socketLeave (socks : List SocketInfo) (s : String) (r : Jstr) : List SocketInfo :=
  socks.map (fun sk =>
    if sk.sid = s then { sk with rooms := sk.rooms.filter (fun x => x ≠ r) } else sk)

/-- The sockets currently in a socket.io room. -/
def socketsInRoom (socks : List SocketInfo) (r : Jstr) : List String :=
  (socks.filter (fun sk => decide (r ∈ sk.rooms))).map SocketInfo.sid

/-- Recipients of `socket.to(room).emit(...)`: every socket in the room
other than the emitting socket. -/
def socketTo (socks : List SocketInfo) (s : String) (r : Jstr) : List String :=
  (socks.filter (fun sk => decide (r ∈ sk.rooms) && decide (sk.sid ≠ s))).map SocketInfo.sid

/-! ### Server messages and handlers -/

/-- Messages the server emits to clients. The relay messages carry exactly
the fields the source copies: for signaling, the payload plus the `from`
field read off the incoming data object. -/
inductive SMsg where
  | userConnected (userId : Jstr)
  | userDisconnected (userId : Jstr)
  | roomUsers (users : List Jstr)
  | offerOut (offer : Jstr) (fromUser : Jstr)
  | answerOut (answer : Jstr) (fromUser : Jstr)
  | iceOut (candidate : Jstr) (fromUser : Jstr)
  | talkingOut (userId : Jstr) (isTalking : Option Bool)
  deriving DecidableEq, Repr

/-- The data object of an incoming signaling message, with every field the
server handlers read; fields the sender omitted are `none`. -/
structure SignalData where
  room : Jstr
  offer : Jstr
  answer : Jstr
  candidate : Jstr
  toUser : Jstr
  fromUser : Jstr
  userId : Jstr
  isTalking : Option Bool
  deriving DecidableEq, Repr

/-- Whole server state: the room registry plus the connected sockets with
their socket.io room memberships. -/
structure ServerState where
  activeRooms : Registry
  sockets : List SocketInfo
  deriving DecidableEq, Repr

/-- A delivery: recipient socket id paired with the emitted message. -/
abbrev Delivery := List (String × SMsg)

/-- The `join-room` handler: update the registry, `socket.join`, broadcast
`user-connected` to the room minus the sender, then send the `room-users`
snapshot (read from the registry after the add) to the joiner alone. -/
def onJoinRoom (st : ServerState) (s : String) (roomId userId : Jstr) :
    ServerState × Delivery :=
  let rooms2 := joinReg st.activeRooms roomId userId
  let socks2 := socketJoin st.sockets s roomId
  let users := membersOf rooms2 roomId
  (⟨rooms2, socks2⟩,
    (socketTo socks2 s roomId).map (fun t => (t, SMsg.userConnected userId))
      ++ [(s, SMsg.roomUsers users)])

/-- The `leave-room` handler: update the registry, `socket.leave`, then
broadcast `user-disconnected` to the room minus the sender. -/
def onLeaveRoom (st : ServerState) (s : String) (roomId userId : Jstr) :
    ServerState × Delivery :=
  let rooms2 := leaveReg st.activeRooms roomId userId
  let socks2 := socketLeave st.sockets s roomId
  (⟨rooms2, socks2⟩,
    (socketTo socks2 s roomId).map (fun t => (t, SMsg.userDisconnected userId)))

/-- The `disconnect` handler: per room containing `socket.id`, remove it,
broadcast `user-disconnected(socket.id)` to the room minus the sender, and
drop the room if emptied; finally the transport removes the socket. -/
def onDisconnect (st : ServerState) (s : String) : ServerState × Delivery :=
  let rooms2 := disconnectReg st.activeRooms s
  let affected := (st.activeRooms.filter (fun e => decide (some s ∈ e.2))).map Prod.fst
  let msgs := affected.flatMap (fun r =>
    (socketTo st.sockets s r).map (fun t => (t, SMsg.userDisconnected (some s))))
  (⟨rooms2, st.sockets.filter (fun sk => sk.sid ≠ s)⟩, msgs)

/-- The `offer` handler: `socket.to(data.room).emit('offer',
{offer: data.offer, from: data.from})`. -/
def onOffer (st : ServerState) (s : String) (d : SignalData) : Delivery :=
  (socketTo st.sockets s d.room).map (fun t => (t, SMsg.offerOut d.offer d.fromUser))

/-- The `answer` handler, symmetric to the offer handler. -/
def onAnswer (st : ServerState) (s : String) (d : SignalData) : Delivery :=
  (socketTo st.sockets s d.room).map (fun t => (t, SMsg.answerOut d.answer d.fromUser))

/-- The `ice-candidate` handler, symmetric to the offer handler. -/
def onIceCandidate (st : ServerState) (s : String) (d : SignalData) : Delivery :=
  (socketTo st.sockets s d.room).map (fun t => (t, SMsg.iceOut d.candidate d.fromUser))

/-- The `user-talking` handler: broadcast to the room minus the sender. -/
def onUserTalking (st : ServerState) (s : String) (d : SignalData) : Delivery :=
  (socketTo st.sockets s d.room).map (fun t => (t, SMsg.talkingOut d.userId d.isTalking))

/-! ### Server event sequences -/

/-- The membership-changing events a server run consists of. -/
inductive SEvent where
  | connectE (sid : String)
  | joinE (sid : String) (roomId userId : Jstr)
  | leaveE (sid : String) (roomId userId : Jstr)
  | disconnectE (sid : String)
  deriving DecidableEq, Repr

/-- State transition of one event (fan-out dropped). -/
def serverStep (st : ServerState) (e : SEvent) : ServerState :=
  match e with
  | .connectE s => { st with sockets := st.sockets ++ [⟨s, []⟩] }
  | .joinE s r u => (onJoinRoom st s r u).1
  | .leaveE s r u => (onLeaveRoom st s r u).1
  | .disconnectE s => (onDisconnect st s).1

/-- The empty initial server state. -/
def initialServer : ServerState := ⟨[], []⟩

/-- Run a sequence of events from the initial state. -/
def serverRun (evs : List SEvent) : ServerState :=
  evs.foldl serverStep initialServer

/-! ### Concrete states for the signaling-relay claims -/

/-- Three sockets all joined to the socket.io room "lobby". -/
def relaySocks : List SocketInfo :=
  [⟨"s1", [some "lobby"]⟩, ⟨"s2", [some "lobby"]⟩, ⟨"s3", [some "lobby"]⟩]

/-- Server state with participants u1, u2, u3 (sessions s1, s2, s3) in
room "lobby". -/
def relayState : ServerState :=
  ⟨[(some "lobby", [some "u1", some "u2", some "u3"])], relaySocks⟩

/-- The offer the client emits: `{room, offer, to}` and no `from` field. -/
def offerData : SignalData :=
  { room := some "lobby", offer := some "sdp-o", answer := none, candidate := none,
    toUser := some "u2", fromUser := none, userId := none, isTalking := none }

/-- C1: the claim says an offer carrying target `to = u2` is delivered only
to the session of u2 with `from` set by the server to the sender identity
u1. The code instead broadcasts to every socket in the room except the
sender, ignoring `to`, and copies the `from` field of the incoming data,
which the client never sets: both s2 and s3 receive the offer and its
`from` field is undefined. -/
theorem offer_relay_broadcasts_not_unicast :
    onOffer relayState "s1" offerData =
      [("s2", SMsg.offerOut (some "sdp-o") none),
       ("s3", SMsg.offerOut (some "sdp-o") none)] := by
  decide

/-- C2: the claim says a disconnect of a session that joined a room removes
that session's participant, so after the last member disconnects the room
entry is absent. The disconnect handler matches members against the
transport id `socket.id`, while join stored the application-level user id,
so nothing is removed: after socket s2 (participant p2) disconnects, the
registry still holds the "lobby" entry with member p2. -/
theorem disconnect_leaves_stale_member :
    (serverRun [SEvent.connectE "s2",
                SEvent.joinE "s2" (some "lobby") (some "p2"),
                SEvent.disconnectE "s2"]).activeRooms
      = [(some "lobby", [some "p2"])] := by
  decide

/-! ### Association-list lemmas -/

theorem alookup_aset_self {α : Type} (m : List (Jstr × α)) (k : Jstr) (v : α) :
    alookup (aset m k v) k = some v := by
  induction m with
  | nil => simp [aset, alookup]
  | cons e rest ih =>
    obtain ⟨k', w⟩ := e
    by_cases h : k' = k
    · simp [aset, alookup, h]
    · simp [aset, alookup, h, ih]

theorem alookup_cons {α : Type} (k' : Jstr) (w : α) (rest : List (Jstr × α)) (k : Jstr) :
    alookup ((k', w) :: rest) k = if k' = k then some w else alookup rest k := rfl

theorem aset_cons {α : Type} (k' : Jstr) (w : α) (rest : List (Jstr × α)) (k : Jstr) (v : α) :
    aset ((k', w) :: rest) k v
      = if k' = k then (k', v) :: rest else (k', w) :: aset rest k v := rfl

theorem mem_aset {α : Type} {m : List (Jstr × α)} {k : Jstr} {v : α} {e : Jstr × α}
    (he : e ∈ aset m k v) : e = (k, v) ∨ e ∈ m := by
  induction m with
  | nil => simpa [aset] using he
  | cons hd rest ih =>
    obtain ⟨k', w⟩ := hd
    by_cases h : k' = k
    · rw [aset_cons, if_pos h] at he
      rcases List.mem_cons.mp he with he | he
      · exact Or.inl (by rw [he, h])
      · exact Or.inr (List.mem_cons_of_mem _ he)
    · rw [aset_cons, if_neg h] at he
      rcases List.mem_cons.mp he with he | he
      · exact Or.inr (by simp [he])
      · rcases ih he with h1 | h1
        · exact Or.inl h1
        · exact Or.inr (List.mem_cons_of_mem _ h1)

theorem alookup_some_mem {α : Type} {m : List (Jstr × α)} {k : Jstr} {v : α}
    (h : alookup m k = some v) : (k, v) ∈ m := by
  induction m with
  | nil => simp [alookup] at h
  | cons e rest ih =>
    obtain ⟨k', w⟩ := e
    by_cases hk : k' = k
    · rw [alookup_cons, if_pos hk] at h
      have hw : w = v := by simpa using h
      rw [← hk, ← hw]
      exact List.mem_cons_self _ _
    · rw [alookup_cons, if_neg hk] at h
      exact List.mem_cons_of_mem _ (ih h)

theorem aset_absent {α : Type} {m : List (Jstr × α)} {k : Jstr}
    (h : alookup m k = none) (v : α) : aset m k v = m ++ [(k, v)] := by
  induction m with
  | nil => simp [aset]
  | cons e rest ih =>
    obtain ⟨k', w⟩ := e
    by_cases hk : k' = k
    · simp [alookup, hk] at h
    · simp only [alookup, if_neg hk] at h
      simp [aset, hk, ih h]

theorem alookup_append_of_none {α : Type} {m : List (Jstr × α)} {k : Jstr}
    (h : alookup m k = none) (m' : List (Jstr × α)) :
    alookup (m ++ m') k = alookup m' k := by
  induction m with
  | nil => simp
  | cons e rest ih =>
    obtain ⟨k', w⟩ := e
    by_cases hk : k' = k
    · simp [alookup, hk] at h
    · simp only [alookup, if_neg hk] at h
      simpa [alookup, hk] using ih h

theorem aset_append_of_none {α : Type} {m : List (Jstr × α)} {k : Jstr}
    (h : alookup m k = none) (m' : List (Jstr × α)) (v : α) :
    aset (m ++ m') k v = m ++ aset m' k v := by
  induction m with
  | nil => simp
  | cons e rest ih =>
    obtain ⟨k', w⟩ := e
    by_cases hk : k' = k
    · simp [alookup, hk] at h
    · simp only [alookup, if_neg hk] at h
      simp [aset, hk, ih h]

/-! ### Registry lemmas -/

theorem addMember_ne_nil (l : List Jstr) (u : Jstr) : addMember l u ≠ [] := by
  unfold addMember
  split
  · exact List.ne_nil_of_mem (by assumption)
  · simp

theorem mem_addMember_self (l : List Jstr) (u : Jstr) : u ∈ addMember l u := by
  unfold addMember
  split
  · assumption
  · simp

theorem joinReg_absent {reg : Registry} {r : Jstr} (h : alookup reg r = none) (u : Jstr) :
    joinReg reg r u = reg ++ [(r, [u])] := by
  unfold joinReg hasRoom
  rw [h]
  simp only [Option.isSome_none, Bool.false_eq_true, if_false]
  rw [aset_absent h, membersOf, alookup_append_of_none h]
  simp only [alookup, if_pos rfl, Option.getD_some]
  rw [aset_append_of_none h]
  simp [aset, addMember]

theorem joinReg_present {reg : Registry} {r : Jstr} {l : List Jstr}
    (h : alookup reg r = some l) (u : Jstr) :
    joinReg reg r u = aset reg r (addMember l u) := by
  unfold joinReg hasRoom
  rw [h]
  simp [membersOf, h]

/-- The registry value at the joined room, after a join, is exactly the
previous member set with the joiner added (set add). -/
theorem membersOf_joinReg (reg : Registry) (r u : Jstr) :
    membersOf (joinReg reg r u) r = addMember (membersOf reg r) u := by
  cases h : alookup reg r with
  | none =>
      rw [joinReg_absent h]
      rw [membersOf, alookup_append_of_none h]
      simp [alookup, membersOf, h, addMember]
  | some l =>
      rw [joinReg_present h]
      simp [membersOf, alookup_aset_self, h]

/-! ### The no-empty-rooms invariant -/

/-- Every entry present in the registry has a nonempty member set. -/
def allNonempty (reg : Registry) : Prop :=
  ∀ e ∈ reg, e.2 ≠ []

theorem allNonempty_joinReg {reg : Registry} (h : allNonempty reg) (r u : Jstr) :
    allNonempty (joinReg reg r u) := by
  cases hl : alookup reg r with
  | none =>
      rw [joinReg_absent hl]
      intro e he
      rcases List.mem_append.mp he with he | he
      · exact h e he
      · simp only [List.mem_singleton] at he
        subst he
        simp
  | some l =>
      rw [joinReg_present hl]
      intro e he
      rcases mem_aset he with he | he
      · subst he
        exact addMember_ne_nil _ _
      · exact h e he

theorem allNonempty_leaveReg {reg : Registry} (h : allNonempty reg) (r u : Jstr) :
    allNonempty (leaveReg reg r u) := by
  unfold leaveReg hasRoom
  cases hl : alookup reg r with
  | none => simpa using h
  | some l =>
      simp only [Option.isSome_some, if_pos]
      split
      · intro e he
        rw [adelete, List.mem_filter] at he
        rcases mem_aset he.1 with h1 | h1
        · exfalso
          have : e.1 ≠ r := by simpa using he.2
          exact this (by rw [h1])
        · exact h e h1
      · next hne =>
        intro e he
        rcases mem_aset he with h1 | h1
        · have : membersOf (aset reg r (delMember (membersOf reg r) u)) r
              = delMember (membersOf reg r) u := by
            simp [membersOf, alookup_aset_self]
          rw [this] at hne
          rw [h1]
          exact hne
        · exact h e h1

theorem allNonempty_disconnectReg {reg : Registry} (h : allNonempty reg) (s : String) :
    allNonempty (disconnectReg reg s) := by
  intro e he
  rw [disconnectReg, List.mem_filterMap] at he
  obtain ⟨a, ha, hfa⟩ := he
  by_cases hmem : some s ∈ a.2
  · simp only [if_pos hmem] at hfa
    split at hfa
    · exact absurd hfa (by simp)
    · next hne =>
      have : e = (a.1, delMember a.2 (some s)) := by
        simpa using hfa.symm
      rw [this]
      exact hne
  · simp only [if_neg hmem] at hfa
    have : e = a := by simpa using hfa.symm
    rw [this]
    exact h a ha

theorem allNonempty_serverStep {st : ServerState} (h : allNonempty st.activeRooms)
    (e : SEvent) : allNonempty (serverStep st e).activeRooms := by
  cases e with
  | connectE s => exact h
  | joinE s r u => exact allNonempty_joinReg h r u
  | leaveE s r u => exact allNonempty_leaveReg h r u
  | disconnectE s => exact allNonempty_disconnectReg h s

theorem allNonempty_foldl (evs : List SEvent) :
    ∀ st : ServerState, allNonempty st.activeRooms →
      allNonempty (evs.foldl serverStep st).activeRooms := by
  induction evs with
  | nil => intro st h; simpa using h
  | cons e rest ih =>
      intro st h
      exact ih (serverStep st e) (allNonempty_serverStep h e)

/-- C3: in every registry state reachable by a sequence of join-room,
leave-room, and disconnect events from the empty initial state, a room's
member set is empty exactly when its entry is absent from the registry map:
no entry ever holds an empty member set. -/
theorem registry_no_empty_rooms (evs : List SEvent) (r : Jstr) :
    membersOf (serverRun evs).activeRooms r = []
      ↔ alookup (serverRun evs).activeRooms r = none := by
  have inv : allNonempty (serverRun evs).activeRooms :=
    allNonempty_foldl evs initialServer (by intro e he; simp [initialServer] at he)
  constructor
  · intro h
    cases hl : alookup (serverRun evs).activeRooms r with
    | none => rfl
    | some l =>
        exfalso
        have hml : membersOf (serverRun evs).activeRooms r = l := by
          simp [membersOf, hl]
        exact inv (r, l) (alookup_some_mem hl) (by simpa [hml] using h)
  · intro h
    simp [membersOf, h]

/-- Witness for C3: after a join followed by the leave of the only member,
the lobby entry is absent; obtained from the theorem via its forward
direction at a concrete event list. -/
theorem registry_no_empty_rooms_witness :
    alookup (serverRun [SEvent.connectE "s1",
                        SEvent.joinE "s1" (some "lobby") (some "p1"),
                        SEvent.leaveE "s1" (some "lobby") (some "p1")]).activeRooms
        (some "lobby") = none :=
  (registry_no_empty_rooms
      [SEvent.connectE "s1",
       SEvent.joinE "s1" (some "lobby") (some "p1"),
       SEvent.leaveE "s1" (some "lobby") (some "p1")] (some "lobby")).mp (by decide)

/-! ### Fan-out characterisation and the join handler -/

theorem mem_addMember {s : List Jstr} {u x : Jstr} :
    x ∈ addMember s u ↔ x = u ∨ x ∈ s := by
  unfold addMember
  split
  · next h =>
    constructor
    · exact Or.inr
    · rintro (rfl | hx)
      · exact h
      · exact hx
  · simp [List.mem_append, or_comm]

theorem mem_delMember {s : List Jstr} {u x : Jstr} :
    x ∈ delMember s u ↔ x ∈ s ∧ x ≠ u := by
  simp [delMember, List.mem_filter]

/-- Recipients of a room emission are exactly the sockets currently in the
room other than the sender. -/
theorem mem_socketTo {socks : List SocketInfo} {s : String} {r : Jstr} {t : String} :
    t ∈ socketTo socks s r ↔ t ∈ socketsInRoom socks r ∧ t ≠ s := by
  simp only [socketTo, socketsInRoom, List.mem_map, List.mem_filter,
    Bool.and_eq_true, decide_eq_true_eq]
  constructor
  · rintro ⟨sk, ⟨hs, hr, hne⟩, rfl⟩
    exact ⟨⟨sk, ⟨hs, hr⟩, rfl⟩, hne⟩
  · rintro ⟨⟨sk, ⟨hs, hr⟩, rfl⟩, hne⟩
    exact ⟨sk, ⟨hs, hr, hne⟩, rfl⟩

/-- C4: the join handler (a) broadcasts `user-connected` of the joining
participant to exactly the sockets currently in the room other than the
joining session, (b) sends the `room-users` snapshot to the joiner, the
snapshot being the registry state after the joiner's add, so it contains
the joiner, and (c) sends the snapshot to no session other than the
joiner. -/
theorem joinRoom_broadcast_and_snapshot (st : ServerState) (s : String) (r u : Jstr) :
    (∀ t, (t, SMsg.userConnected u) ∈ (onJoinRoom st s r u).2
        ↔ (t ∈ socketsInRoom (onJoinRoom st s r u).1.sockets r ∧ t ≠ s)) ∧
    ((s, SMsg.roomUsers (membersOf (onJoinRoom st s r u).1.activeRooms r))
        ∈ (onJoinRoom st s r u).2) ∧
    (u ∈ membersOf (onJoinRoom st s r u).1.activeRooms r) ∧
    (∀ t l, (t, SMsg.roomUsers l) ∈ (onJoinRoom st s r u).2 → t = s) := by
  refine ⟨?_, ?_, ?_, ?_⟩
  · intro t
    have h1 : (t, SMsg.userConnected u) ∈ (onJoinRoom st s r u).2
        ↔ t ∈ socketTo (socketJoin st.sockets s r) s r := by
      simp [onJoinRoom, List.mem_append, List.mem_map]
    have h2 : (onJoinRoom st s r u).1.sockets = socketJoin st.sockets s r := rfl
    rw [h1, h2, mem_socketTo]
  · simp [onJoinRoom]
  · simp only [onJoinRoom]
    rw [membersOf_joinReg]
    exact mem_addMember_self _ _
  · intro t l h
    simp only [onJoinRoom, List.mem_append, List.mem_map, List.mem_singleton] at h
    rcases h with ⟨a, _, ha⟩ | h
    · exact absurd (congrArg Prod.snd ha) (by simp)
    · exact congrArg Prod.fst h

/-- Concrete state: p1 (socket s1) alone in "lobby", socket s2 connected. -/
def joinStateC4 : ServerState :=
  ⟨[(some "lobby", [some "p1"])], [⟨"s1", [some "lobby"]⟩, ⟨"s2", []⟩]⟩

/-- Witness for C4 at the §8 scenario: p2 (socket s2) joins "lobby"; the
resident socket s1 receives `user-connected(p2)` and the snapshot contains
p2 itself. -/
theorem joinRoom_broadcast_and_snapshot_witness :
    ("s1", SMsg.userConnected (some "p2"))
        ∈ (onJoinRoom joinStateC4 "s2" (some "lobby") (some "p2")).2 ∧
    (some "p2") ∈ membersOf
        (onJoinRoom joinStateC4 "s2" (some "lobby") (some "p2")).1.activeRooms
        (some "lobby") :=
  ⟨((joinRoom_broadcast_and_snapshot joinStateC4 "s2" (some "lobby") (some "p2")).1
        "s1").mpr (by decide),
   (joinRoom_broadcast_and_snapshot joinStateC4 "s2" (some "lobby") (some "p2")).2.2.1⟩

/-! ### Sequences of join and leave on one room (refinement to set fold) -/

/-- Operations a single room receives: joins and leaves of participants. -/
inductive RoomOp where
  | joinOp (u : Jstr)
  | leaveOp (u : Jstr)
  deriving DecidableEq, Repr

/-- Apply one operation to the registry through the source handlers. -/
def applyRoomOp (r : Jstr) (reg : Registry) (op : RoomOp) : Registry :=
  match op with
  | .joinOp u => joinReg reg r u
  | .leaveOp u => leaveReg reg r u

/-- Apply a sequence of operations on room `r` from the empty registry. -/
def applyRoomOps (r : Jstr) (ops : List RoomOp) : Registry :=
  ops.foldl (applyRoomOp r) []

/-- One step of the plain set semantics the spec describes. -/
def finStep (f : Finset Jstr) (op : RoomOp) : Finset Jstr :=
  match op with
  | .joinOp u => insert u f
  | .leaveOp u => f.erase u

/-- Stated from the spec: the set of participants joined and not
subsequently left, with duplicate joins idempotent and leaves of absent
participants ignored. -/
def specMembers (ops : List RoomOp) : Finset Jstr :=
  ops.foldl finStep ∅

/-- List-level mirror of the set fold, matching the insertion order a JS
`Set` keeps. -/
def listStep (s : List Jstr) (op : RoomOp) : List Jstr :=
  match op with
  | .joinOp u => addMember s u
  | .leaveOp u => delMember s u

/-- The member list of room `r` after a sequence of operations. -/
def listMembers (ops : List RoomOp) : List Jstr :=
  ops.foldl listStep []

/-- The registry a single-room run can reach: absent when the member list
is empty, else the single entry. -/
def regOf (r : Jstr) (s : List Jstr) : Registry :=
  if s = [] then [] else [(r, s)]

theorem joinReg_nil (r u : Jstr) : joinReg [] r u = [(r, [u])] := by
  rw [joinReg_absent (show alookup ([] : Registry) r = none from rfl)]
  rfl

theorem joinReg_single (r : Jstr) (s : List Jstr) (u : Jstr) :
    joinReg [(r, s)] r u = [(r, addMember s u)] := by
  rw [joinReg_present (l := s) (by simp [alookup])]
  rw [aset_cons, if_pos rfl]

theorem leaveReg_nil (r u : Jstr) : leaveReg [] r u = [] := by
  simp [leaveReg, hasRoom, alookup]

theorem leaveReg_single (r : Jstr) (s : List Jstr) (u : Jstr) :
    leaveReg [(r, s)] r u
      = if delMember s u = [] then [] else [(r, delMember s u)] := by
  by_cases hd : delMember s u = []
  · simp [leaveReg, hasRoom, alookup, membersOf, aset, adelete, hd]
  · simp [leaveReg, hasRoom, alookup, membersOf, aset, adelete, hd]

theorem applyRoomOp_regOf (r : Jstr) (s : List Jstr) (op : RoomOp) :
    applyRoomOp r (regOf r s) op = regOf r (listStep s op) := by
  cases op with
  | joinOp u =>
    by_cases hs : s = []
    · subst hs
      rw [regOf, if_pos rfl, applyRoomOp, joinReg_nil]
      rw [listStep, regOf, if_neg (addMember_ne_nil [] u)]
      simp [addMember]
    · rw [regOf, if_neg hs, applyRoomOp, joinReg_single]
      rw [listStep, regOf, if_neg (addMember_ne_nil s u)]
  | leaveOp u =>
    by_cases hs : s = []
    · subst hs
      rw [regOf, if_pos rfl, applyRoomOp, leaveReg_nil]
      rw [listStep, regOf, if_pos (by simp [delMember])]
    · rw [regOf, if_neg hs, applyRoomOp, leaveReg_single]
      rw [listStep, regOf]

theorem applyRoomOps_eq_regOf (r : Jstr) (ops : List RoomOp) :
    applyRoomOps r ops = regOf r (listMembers ops) := by
  suffices h : ∀ s, ops.foldl (applyRoomOp r) (regOf r s) = regOf r (ops.foldl listStep s) by
    have h0 := h []
    simpa [applyRoomOps, listMembers, regOf] using h0
  induction ops with
  | nil => intro s; rfl
  | cons op rest ih =>
      intro s
      simp only [List.foldl_cons]
      rw [applyRoomOp_regOf]
      exact ih (listStep s op)

theorem mem_listMembers_iff (ops : List RoomOp) :
    ∀ u, u ∈ listMembers ops ↔ u ∈ specMembers ops := by
  suffices h : ∀ (s : List Jstr) (f : Finset Jstr), (∀ x, x ∈ s ↔ x ∈ f) →
      ∀ x, x ∈ ops.foldl listStep s ↔ x ∈ ops.foldl finStep f by
    exact fun u => h [] ∅ (by simp) u
  induction ops with
  | nil => intro s f hsf x; simpa [listMembers, specMembers] using hsf x
  | cons op rest ih =>
      intro s f hsf x
      simp only [List.foldl_cons]
      refine ih (listStep s op) (finStep f op) (fun y => ?_) x
      cases op with
      | joinOp u =>
          simp [listStep, finStep, mem_addMember, hsf y, Finset.mem_insert]
      | leaveOp u =>
          rw [listStep, finStep, mem_delMember, Finset.mem_erase, hsf y]
          exact and_comm

/-- C5: for every finite sequence of join and leave operations on a room,
the registry member set for that room is exactly the set of participants
joined and not subsequently left; a duplicate join of a present participant
leaves the whole registry unchanged, and a leave of an absent participant
(or on an absent room) is a no-op on the registry. -/
theorem registry_refines_set (r : Jstr) (ops : List RoomOp) :
    (∀ u, u ∈ membersOf (applyRoomOps r ops) r ↔ u ∈ specMembers ops) ∧
    (∀ u, u ∈ specMembers ops →
        applyRoomOps r (ops ++ [RoomOp.joinOp u]) = applyRoomOps r ops) ∧
    (∀ u, u ∉ specMembers ops →
        applyRoomOps r (ops ++ [RoomOp.leaveOp u]) = applyRoomOps r ops) := by
  have hreg := applyRoomOps_eq_regOf r ops
  have hmem := mem_listMembers_iff ops
  refine ⟨?_, ?_, ?_⟩
  · intro u
    rw [hreg, ← hmem u]
    by_cases h : listMembers ops = []
    · simp [regOf, h, membersOf, alookup]
    · simp [regOf, h, membersOf, alookup]
  · intro u hu
    have hul : u ∈ listMembers ops := (hmem u).mpr hu
    have happ : applyRoomOps r (ops ++ [RoomOp.joinOp u])
        = applyRoomOp r (applyRoomOps r ops) (RoomOp.joinOp u) := by
      simp [applyRoomOps, List.foldl_append]
    rw [happ, hreg, applyRoomOp_regOf]
    simp [listStep, addMember, hul]
  · intro u hu
    have hul : u ∉ listMembers ops := fun hx => hu ((hmem u).mp hx)
    have happ : applyRoomOps r (ops ++ [RoomOp.leaveOp u])
        = applyRoomOp r (applyRoomOps r ops) (RoomOp.leaveOp u) := by
      simp [applyRoomOps, List.foldl_append]
    rw [happ, hreg, applyRoomOp_regOf]
    have hdel : delMember (listMembers ops) u = listMembers ops := by
      rw [delMember, List.filter_eq_self]
      intro x hx
      have hxu : x ≠ u := fun h => hul (h ▸ hx)
      simp [hxu]
    rw [listStep, hdel]

/-- Concrete operation list for the C5 witness. -/
def opsC5 : List RoomOp :=
  [RoomOp.joinOp (some "a"), RoomOp.joinOp (some "b"), RoomOp.joinOp (some "a"),
   RoomOp.leaveOp (some "b")]

/-- Witness for C5: after join a, join b, duplicate join a, leave b, the
room holds exactly a, and a further leave of the absent b changes
nothing. -/
theorem registry_refines_set_witness :
    (some "a") ∈ membersOf (applyRoomOps (some "lobby") opsC5) (some "lobby") ∧
    applyRoomOps (some "lobby") (opsC5 ++ [RoomOp.leaveOp (some "b")])
      = applyRoomOps (some "lobby") opsC5 :=
  ⟨((registry_refines_set (some "lobby") opsC5).1 (some "a")).mpr (by decide),
   (registry_refines_set (some "lobby") opsC5).2.2 (some "b") (by decide)⟩

/-! ### Client model (`WalkieTalkieApp`) -/

/-- A client-side peer connection: the remote description state a
`RTCPeerConnection` accumulates in this application, with the transport
library's calls modelled as succeeding. -/
structure PeerConn where
  peerId : Jstr
  localDesc : Jstr
  remoteDesc : Jstr
  candidates : List Jstr
  deriving DecidableEq, Repr

/-- The negotiation description `createOffer` produces (transport library
modelled as succeeding). -/
def sdpOffer : Jstr := some "sdp-offer"

/-- The negotiation description `createAnswer` produces. -/
def sdpAnswer : Jstr := some "sdp-answer"

/-- Client state: `localStream` is `some enabled` once the microphone is
acquired, where `enabled` is the track's mute gate; `peerConnections` is
the object keyed by remote user id; `roomId` is null before any join. -/
structure ClientState where
  localStream : Option Bool
  peerConnections : List (Jstr × PeerConn)
  roomId : Jstr
  userId : String
  username : String
  deriving DecidableEq, Repr

/-- Messages the client emits to the server. -/
inductive CMsg where
  | joinRoomMsg (room : Jstr) (user : String)
  | leaveRoomMsg (room : Jstr) (user : String)
  | offerMsg (room : Jstr) (offer : Jstr) (toUser : Jstr)
  | answerMsg (room : Jstr) (answer : Jstr) (toUser : Jstr)
  | iceMsg (room : Jstr) (candidate : Jstr) (toUser : Jstr)
  | talkingMsg (room : Jstr) (user : String) (isTalking : Bool)
  deriving DecidableEq, Repr

/-- Observable client actions: relay emissions and user-interface calls. -/
inductive Effect where
  | emit (m : CMsg)
  | showError (msg : String)
  | updateStatus (msg : String)
  | uiAddUser (u : Jstr)
  | uiRemoveUser (u : Jstr)
  | uiSetUsers (users : List Jstr)
  | uiTalk (talking : Bool)
  deriving DecidableEq, Repr

/-- The error text `getMicrophoneAccess` throws on a denied device. -/
def micDeniedMsg : String :=
  "Microphone access denied. Please allow microphone permissions."

/-- Whitespace test used by the JS `trim()` model. -/
def isWs (c : Char) : Bool :=
  c = ' ' ∨ c = '\t' ∨ c = '\n' ∨ c = '\r'

/-- The JS `String.prototype.trim()`: strip leading and trailing
whitespace. -/
def jsTrim (s : String) : String :=
  ⟨((s.data.dropWhile isWs).reverse.dropWhile isWs).reverse⟩

/-- A freshly constructed peer connection for a remote user. -/
def freshPeer (u : Jstr) : PeerConn :=
  { peerId := u, localDesc := none, remoteDesc := none, candidates := [] }

/-- A fresh peer connection after `createOffer` stored the local offer. -/
def offeredPeer (u : Jstr) : PeerConn :=
  { freshPeer u with localDesc := sdpOffer }

/-- `createOffer(userId)`: reads the stored connection, sets the local
description and emits the offer addressed to `userId` with the current
`roomId`; a missing connection makes the call fail, which the source only
logs. -/
def createOffer (st : ClientState) (userId : Jstr) : ClientState × List Effect :=
  match alookup st.peerConnections userId with
  | none => (st, [])
  | some pc =>
      ({ st with
          peerConnections :=
            aset st.peerConnections userId { pc with localDesc := sdpOffer } },
       [Effect.emit (CMsg.offerMsg st.roomId sdpOffer userId)])

/-- `createPeerConnection(userId)`: returns the stored connection when one
exists; otherwise builds a fresh connection, stores it, and calls
`createOffer` for it, returning the connection. -/
def createPeerConnection (st : ClientState) (userId : Jstr) :
    ClientState × PeerConn × List Effect :=
  match alookup st.peerConnections userId with
  | some pc => (st, pc, [])
  | none =>
      let pc0 := freshPeer userId
      let st1 := { st with peerConnections := aset st.peerConnections userId pc0 }
      let res := createOffer st1 userId
      (res.1, (alookup res.1.peerConnections userId).getD pc0, res.2)

/-- The `user-connected` socket handler: `createPeerConnection` then
`addUserToList`. -/
def onUserConnected (st : ClientState) (userId : Jstr) : ClientState × List Effect :=
  let res := createPeerConnection st userId
  (res.1, res.2.2 ++ [Effect.uiAddUser userId])

/-- The `room-users` socket handler: refresh the list, then ensure a peer
connection for every listed user other than self. -/
def onRoomUsers (st : ClientState) (users : List Jstr) : ClientState × List Effect :=
  users.foldl
    (fun acc u =>
      if u = some acc.1.userId then acc
      else
        let res := createPeerConnection acc.1 u
        (res.1, acc.2 ++ res.2.2))
    (st, [Effect.uiSetUsers users])

/-- `handleOffer`: create or reuse the connection for the sender, apply the
remote description, produce and apply the local answer, emit the answer. -/
def handleOffer (st : ClientState) (offer fromUserId : Jstr) : ClientState × List Effect :=
  let res := createPeerConnection st fromUserId
  let pc1 := { res.2.1 with remoteDesc := offer, localDesc := sdpAnswer }
  ({ res.1 with peerConnections := aset res.1.peerConnections fromUserId pc1 },
   res.2.2 ++ [Effect.emit (CMsg.answerMsg st.roomId sdpAnswer fromUserId)])

/-- `handleAnswer`: apply the remote description when a connection exists,
no-op otherwise. -/
def handleAnswer (st : ClientState) (answer fromUserId : Jstr) : ClientState :=
  match alookup st.peerConnections fromUserId with
  | none => st
  | some pc =>
      { st with
          peerConnections :=
            aset st.peerConnections fromUserId { pc with remoteDesc := answer } }

/-- `handleIceCandidate`: append the candidate when a connection exists,
no-op (the candidate is dropped) otherwise. -/
def handleIceCandidate (st : ClientState) (candidate fromUserId : Jstr) : ClientState :=
  match alookup st.peerConnections fromUserId with
  | none => st
  | some pc =>
      { st with
          peerConnections :=
            aset st.peerConnections fromUserId
              { pc with candidates := pc.candidates ++ [candidate] } }

/-- `removePeerConnection`: close and delete the connection if present. -/
def removePeerConnection (st : ClientState) (userId : Jstr) : ClientState :=
  match alookup st.peerConnections userId with
  | none => st
  | some _ => { st with peerConnections := adelete st.peerConnections userId }

/-- `joinRoom()`: trim the inputs, reject an empty room name with an error,
acquire the microphone (mute-by-default), and only then emit the join
message; a denied microphone surfaces the join error instead. -/
def joinRoom (st : ClientState) (roomInput usernameInput : String) (micGranted : Bool) :
    ClientState × List Effect :=
  let st1 := { st with
    roomId := some (jsTrim roomInput),
    username := if jsTrim usernameInput = "" then "Anonymous" else jsTrim usernameInput }
  if jsTruthy st1.roomId then
    if micGranted then
      let st2 := { st1 with localStream := some false }
      (st2, [Effect.emit (CMsg.joinRoomMsg st2.roomId st2.userId),
             Effect.updateStatus ("Joined room: " ++ jsTrim roomInput),
             Effect.uiAddUser (some st2.userId)])
    else
      (st1, [Effect.showError ("Failed to join room: " ++ micDeniedMsg)])
  else
    (st1, [Effect.showError "Please enter a room name"])

/-- `leaveRoom()`: emit the leave when a room is active, then drop every
peer connection and release the stream. -/
def leaveRoom (st : ClientState) : ClientState × List Effect :=
  let first :=
    if jsTruthy st.roomId then
      (({ st with roomId := none } : ClientState),
       [Effect.emit (CMsg.leaveRoomMsg st.roomId st.userId)])
    else (st, ([] : List Effect))
  ({ first.1 with peerConnections := [], localStream := none },
   first.2 ++ [Effect.updateStatus "Left room"])

/-- `startTalking()`: with a stream present, enable the track, update the
button, and emit the talking notification only when a room is active. -/
def startTalking (st : ClientState) : ClientState × List Effect :=
  match st.localStream with
  | none => (st, [])
  | some _ =>
      let st1 := { st with localStream := some true }
      if jsTruthy st.roomId then
        (st1, [Effect.uiTalk true,
               Effect.emit (CMsg.talkingMsg st.roomId st.userId true)])
      else (st1, [Effect.uiTalk true])

/-- `stopTalking()`: the mirror of `startTalking`. -/
def stopTalking (st : ClientState) : ClientState × List Effect :=
  match st.localStream with
  | none => (st, [])
  | some _ =>
      let st1 := { st with localStream := some false }
      if jsTruthy st.roomId then
        (st1, [Effect.uiTalk false,
               Effect.emit (CMsg.talkingMsg st.roomId st.userId false)])
      else (st1, [Effect.uiTalk false])

/-! ### Peer-connection creation lemmas -/

theorem createPeerConnection_present {st : ClientState} {u : Jstr} {pc : PeerConn}
    (h : alookup st.peerConnections u = some pc) :
    createPeerConnection st u = (st, pc, []) := by
  unfold createPeerConnection
  rw [h]

theorem createPeerConnection_absent {st : ClientState} {u : Jstr}
    (h : alookup st.peerConnections u = none) :
    createPeerConnection st u =
      ({ st with
          peerConnections :=
            aset (aset st.peerConnections u (freshPeer u)) u (offeredPeer u) },
       offeredPeer u,
       [Effect.emit (CMsg.offerMsg st.roomId sdpOffer u)]) := by
  unfold createPeerConnection createOffer
  rw [h]
  simp [alookup_aset_self, offeredPeer]

/-! ### C6: the user-connected handler -/

/-- Fresh client in room "lobby" with no peer connections. -/
def cliFresh : ClientState :=
  { localStream := some false, peerConnections := [], roomId := some "lobby",
    userId := "me", username := "Me" }

/-- C6 counterexample: the claim says handling `user-connected` creates a
missing Peer Link but does not itself emit a negotiation offer. Handling
`user-connected(u2)` on a client with no link for u2 emits an offer
addressed to u2, because `createPeerConnection` always calls
`createOffer` for a newly created connection. -/
theorem userConnected_emits_offer :
    Effect.emit (CMsg.offerMsg (some "lobby") sdpOffer (some "u2"))
      ∈ (onUserConnected cliFresh (some "u2")).2 := by
  decide

/-- C6 amended: handling `user-connected(u)` ensures a Peer Link for `u`
exists; when the link was absent it creates one and also emits a
negotiation offer addressed to `u`; when the link already existed it
changes nothing and emits no message. -/
theorem userConnected_ensures_link (st : ClientState) (u : Jstr) :
    (alookup (onUserConnected st u).1.peerConnections u).isSome = true ∧
    (alookup st.peerConnections u = none →
        Effect.emit (CMsg.offerMsg st.roomId sdpOffer u) ∈ (onUserConnected st u).2) ∧
    (∀ pc, alookup st.peerConnections u = some pc →
        (onUserConnected st u).1 = st ∧ ∀ m, Effect.emit m ∉ (onUserConnected st u).2) := by
  cases h : alookup st.peerConnections u with
  | some pc =>
      refine ⟨?_, ?_, ?_⟩
      · simp [onUserConnected, createPeerConnection_present h, h]
      · intro hn
        simp at hn
      · intro pc' _
        simp [onUserConnected, createPeerConnection_present h]
  | none =>
      refine ⟨?_, ?_, ?_⟩
      · simp [onUserConnected, createPeerConnection_absent h, alookup_aset_self]
      · intro _
        simp [onUserConnected, createPeerConnection_absent h]
      · intro pc hpc
        simp at hpc

/-- Witness for the amended C6 at a concrete client with no link for u7:
the hypothesis of the absent case is discharged by evaluation. -/
theorem userConnected_ensures_link_witness :
    Effect.emit (CMsg.offerMsg (some "lobby") sdpOffer (some "u7"))
      ∈ (onUserConnected cliFresh (some "u7")).2 :=
  (userConnected_ensures_link cliFresh (some "u7")).2.1 (by decide)

/-! ### C7: the server joins a room even with a missing room identifier -/

/-- A server with one connected socket and an empty registry. -/
def preJoinServer : ServerState := ⟨[], [⟨"s1", []⟩]⟩

/-- C7 counterexample: the claim says a join-room with a missing room
identifier leaves the registry unchanged and emits nothing. The handler
has no guard: it creates an entry keyed by the missing identifier and
emits the room-users snapshot to the joiner. -/
theorem join_missing_room_processed :
    (onJoinRoom preJoinServer "s1" none (some "u1")).1.activeRooms
        = [(none, [some "u1"])] ∧
    ("s1", SMsg.roomUsers [some "u1"])
        ∈ (onJoinRoom preJoinServer "s1" none (some "u1")).2 := by
  decide

/-- C7 amended: the server applies no validation to join-room: a join with
a missing room identifier is processed like any other join, the registry
entry keyed by the missing identifier receives the participant, and the
room-users snapshot is emitted to the joining session. -/
theorem join_missing_room_is_processed (st : ServerState) (s : String) (u : Jstr) :
    membersOf (onJoinRoom st s none u).1.activeRooms none
        = addMember (membersOf st.activeRooms none) u ∧
    u ∈ membersOf (onJoinRoom st s none u).1.activeRooms none ∧
    (s, SMsg.roomUsers (membersOf (onJoinRoom st s none u).1.activeRooms none))
        ∈ (onJoinRoom st s none u).2 := by
  refine ⟨?_, ?_, ?_⟩
  · exact membersOf_joinReg st.activeRooms none u
  · rw [show (onJoinRoom st s none u).1.activeRooms
          = joinReg st.activeRooms none u from rfl, membersOf_joinReg]
    exact mem_addMember_self _ _
  · simp [onJoinRoom]

/-! ### C8: a denied microphone aborts the join -/

/-- C8: when the microphone acquisition fails during a join attempt whose
room name is nonempty, no relay message of any kind is emitted and the
user-facing join error is surfaced. -/
theorem micFailure_aborts_join (st : ClientState) (roomInput usernameInput : String)
    (h : jsTrim roomInput ≠ "") :
    (∀ m, Effect.emit m ∉ (joinRoom st roomInput usernameInput false).2) ∧
    Effect.showError ("Failed to join room: " ++ micDeniedMsg)
        ∈ (joinRoom st roomInput usernameInput false).2 := by
  have hb : jsTruthy (some (jsTrim roomInput)) = true := by simp [jsTruthy, h]
  constructor
  · intro m
    simp [joinRoom, hb]
  · simp [joinRoom, hb]

/-- Witness for C8: a concrete client joining "lobby" with the microphone
denied emits no join message and shows the error. -/
theorem micFailure_aborts_join_witness :
    Effect.emit (CMsg.joinRoomMsg (some "lobby") "me")
        ∉ (joinRoom cliFresh "lobby" "Al" false).2 ∧
    Effect.showError ("Failed to join room: " ++ micDeniedMsg)
        ∈ (joinRoom cliFresh "lobby" "Al" false).2 :=
  ⟨(micFailure_aborts_join cliFresh "lobby" "Al" (by decide)).1 _,
   (micFailure_aborts_join cliFresh "lobby" "Al" (by decide)).2⟩

/-! ### C9: the talking toggle is local-only without a room -/

/-- C9: with no active room, `startTalking` followed by `stopTalking`
emits no relay message in either call. -/
theorem setTalking_noRoom_noEmit (st : ClientState) (h : st.roomId = none) :
    (∀ m, Effect.emit m ∉ (startTalking st).2) ∧
    (∀ m, Effect.emit m ∉ (stopTalking (startTalking st).1).2) := by
  cases hls : st.localStream with
  | none =>
      constructor <;> intro m <;>
        simp [startTalking, stopTalking, hls, h, jsTruthy]
  | some b =>
      constructor <;> intro m <;>
        simp [startTalking, stopTalking, hls, h, jsTruthy]

/-- A client holding a stream but no room (the pre-join state). -/
def cliNoRoom : ClientState :=
  { localStream := some false, peerConnections := [], roomId := none,
    userId := "me", username := "Me" }

/-- Witness for C9 at the pre-join client: neither toggle emits. -/
theorem setTalking_noRoom_noEmit_witness :
    Effect.emit (CMsg.talkingMsg none "me" true) ∉ (startTalking cliNoRoom).2 ∧
    Effect.emit (CMsg.talkingMsg none "me" false)
        ∉ (stopTalking (startTalking cliNoRoom).1).2 :=
  ⟨(setTalking_noRoom_noEmit cliNoRoom rfl).1 _,
   (setTalking_noRoom_noEmit cliNoRoom rfl).2 _⟩

/-! ### C10: createPeerConnection is idempotent -/

/-- C10: calling `createPeerConnection` for a participant whose Peer Link
already exists returns the stored connection unchanged, leaves the whole
client state unchanged (no second link), and emits nothing — in
particular no additional negotiation offer. -/
theorem createPeerConnection_idempotent (st : ClientState) (u : Jstr) (pc : PeerConn)
    (h : alookup st.peerConnections u = some pc) :
    createPeerConnection st u = (st, pc, []) :=
  createPeerConnection_present h

/-- A stored peer connection for the C10 witness. -/
def pcExisting : PeerConn :=
  { peerId := some "u9", localDesc := sdpOffer, remoteDesc := none, candidates := [] }

/-- Client already holding a Peer Link for u9. -/
def cliWithPeer : ClientState :=
  { localStream := some false, peerConnections := [(some "u9", pcExisting)],
    roomId := some "lobby", userId := "me", username := "Me" }

/-- Witness for C10: on the client already linked to u9, a second
`createPeerConnection` returns the stored link and does nothing. -/
theorem createPeerConnection_idempotent_witness :
    createPeerConnection cliWithPeer (some "u9") = (cliWithPeer, pcExisting, []) :=
  createPeerConnection_idempotent cliWithPeer (some "u9") pcExisting (by decide)

end Appwt
